import Mathlib

/-!
# Verification of the shell core (`src/app/main.py`)

A shallow embedding of the pure logic of the Python shell implementation:
the pipeline splitter (`PipelineManager.has_pipe` / `split_by_pipe`),
the tokenizer (`shlex.split` in POSIX mode, as used by `Shell.execute`),
the redirection parser (`RedirectionManager.parse_redirections`), the
parent-directory creation in `RedirectionManager.open_files`, the `cd`
builtin (`CdCommand.execute`), the history bookkeeping
(`Shell.command_history` / `Shell.history_file_positions` and
`HistoryCommand.execute`), and the dispatch/error paths of
`Shell.execute` and the `Shell.run` REPL loop.

Operating-system effects (file contents, working directory, spawned
processes) are represented by explicit oracles and event traces; builtin
bodies other than `cd` and `exit` are recorded as opaque `ranBuiltin`
events since no claim depends on their output formatting.
-/

/-! ## Python string helpers -/

/-- Python `str.isspace` characters relevant to `str.strip()`:
space, tab, newline, carriage return, vertical tab, form feed. -/
def isPyWs (c : Char) : Bool :=
  c = ' ' || c = '\t' || c = '\n' || c = '\r' || c = '\x0b' || c = '\x0c'

/-- Python `str.strip()` on a character list. -/
def pyStripL (l : List Char) : List Char :=
  ((l.dropWhile isPyWs).reverse.dropWhile isPyWs).reverse

/-- Python `str.strip()` with no arguments. -/
def pyStrip (s : String) : String :=
  String.mk (pyStripL s.data)

/-- Python `str.split(sep)` for a one-character separator: splits at every
occurrence of `sep`, keeping empty pieces (`"a||b".split('|') = ['a','','b']`). -/
def pySplitOn (sep : Char) : List Char → List (List Char)
  | [] => [[]]
  | c :: rest =>
    match pySplitOn sep rest with
    | [] => [[]]
    | t :: ts => if c = sep then [] :: t :: ts else (c :: t) :: ts

/-- Count of occurrences of a character in a list. -/
def countChar (sep : Char) : List Char → Nat
  | [] => 0
  | c :: rest => (if c = sep then 1 else 0) + countChar sep rest

/-- Join pieces back with the separator: the inverse of `pySplitOn`. -/
def joinWith (sep : Char) : List (List Char) → List Char
  | [] => []
  | [x] => x
  | x :: y :: ys => x ++ sep :: joinWith sep (y :: ys)

/-! ## Pipeline splitting (`PipelineManager`, src/app/main.py lines 204-211)

`has_pipe` is `'|' in command_line` and `split_by_pipe` is
`command_line.split('|')` with each part stripped: there is no quote or
escape awareness at all. -/

/-- `PipelineManager.has_pipe`. -/
def hasPipe (s : String) : Bool :=
  s.data.contains '|'

/-- `PipelineManager.split_by_pipe`. -/
def splitByPipe (s : String) : List String :=
  (pySplitOn '|' s.data).map (fun cs => pyStrip (String.mk cs))

/-! ## The tokenizer: `shlex.split(line, posix=True)`

`Shell.execute` and the pipeline path tokenise with Python's
`shlex.split` in POSIX mode (`whitespace_split=True`, no comments).
Rules, from CPython's `shlex.read_token`:
  * whitespace (space, tab, CR, LF) separates tokens;
  * `'...'` is literal up to the closing quote;
  * inside `"..."` a backslash escapes only `"` and `\`, otherwise the
    backslash is kept;
  * outside quotes a backslash escapes the next character verbatim;
  * EOF inside a quote raises `ValueError("No closing quotation")` and a
    trailing backslash raises `ValueError("No escaped character")`;
  * an empty quoted string still yields an (empty) token. -/

inductive ShlexErr where
  | noClosingQuote
  | noEscapedChar
  deriving DecidableEq, Repr

/-- The message carried by the `ValueError` that `shlex` raises. -/
def shlexErrMsg : ShlexErr → String
  | .noClosingQuote => "No closing quotation"
  | .noEscapedChar => "No escaped character"

/-- Whitespace as understood by `shlex` (its default `whitespace` set). -/
def isShlexWs (c : Char) : Bool :=
  c = ' ' || c = '\t' || c = '\r' || c = '\n'

inductive SState where
  | unq
  | sq
  | dq
  deriving DecidableEq, Repr

/-- One pass of `shlex.read_token`, accumulated over the whole line.
`acc` is the current token (reversed), `started` records whether the
token has been "opened" by a quote (so empty quoted tokens are kept). -/
def shlexAux (st : SState) (acc : List Char) (started : Bool) :
    List Char → Except ShlexErr (List String)
  | [] =>
    match st with
    | .unq => .ok (if started || !(acc.isEmpty) then [String.mk acc.reverse] else [])
    | .sq => .error .noClosingQuote
    | .dq => .error .noClosingQuote
  | c :: rest =>
    match st with
    | .unq =>
      if isShlexWs c then
        if started || !(acc.isEmpty) then
          match shlexAux .unq [] false rest with
          | .ok ts => .ok (String.mk acc.reverse :: ts)
          | .error e => .error e
        else
          shlexAux .unq [] false rest
      else if c = '\'' then shlexAux .sq acc true rest
      else if c = '"' then shlexAux .dq acc true rest
      else if c = '\\' then
        match rest with
        | [] => .error .noEscapedChar
        | d :: rest2 => shlexAux .unq (d :: acc) true rest2
      else shlexAux .unq (c :: acc) true rest
    | .sq =>
      if c = '\'' then shlexAux .unq acc started rest
      else shlexAux .sq (c :: acc) started rest
    | .dq =>
      if c = '"' then shlexAux .unq acc started rest
      else if c = '\\' then
        match rest with
        | [] => .error .noEscapedChar
        | d :: rest2 =>
          if d = '"' || d = '\\' then shlexAux .dq (d :: acc) started rest2
          else shlexAux .dq (d :: '\\' :: acc) started rest2
      else shlexAux .dq (c :: acc) started rest

/-- `shlex.split(line, posix=True)` as called by the shell. -/
def shlexSplit (s : String) : Except ShlexErr (List String) :=
  shlexAux .unq [] false s.data

instance {ε α : Type} [DecidableEq ε] [DecidableEq α] : DecidableEq (Except ε α) := fun a b =>
  match a, b with
  | .ok x, .ok y =>
    if h : x = y then .isTrue (congrArg Except.ok h)
    else .isFalse (fun he => h (Except.ok.inj he))
  | .error x, .error y =>
    if h : x = y then .isTrue (congrArg Except.error h)
    else .isFalse (fun he => h (Except.error.inj he))
  | .ok _, .error _ => .isFalse (fun he => Except.noConfusion he)
  | .error _, .ok _ => .isFalse (fun he => Except.noConfusion he)

/-! ## Redirection parsing (`RedirectionManager`, lines 117-151)

A fresh `RedirectionManager` starts with both targets `None` and both
modes `'w'`.  `parse_redirections` scans the argument list; a token that
is exactly one of the six operator strings consumes the next token (if
any) as the target — `None` when the operator is last — overwriting the
slot, and both are deleted from the argument list. -/

structure RedirState where
  stdout_target : Option String
  stderr_target : Option String
  stdout_mode : String
  stderr_mode : String
  deriving DecidableEq, Repr

/-- `RedirectionManager.__init__`. -/
def initRedir : RedirState :=
  ⟨none, none, "w", "w"⟩

/-- `RedirectionManager.REDIRECT_TOKENS`. -/
def REDIRECT_TOKENS : List String :=
  ["2>>", "2>", "1>>", "1>", ">>", ">"]

/-- The `if tok == ... / elif ...` chain in `parse_redirections`. -/
def applyRedirTok (st : RedirState) (tok : String) (target : Option String) : RedirState :=
  match tok with
  | "2>>" => { st with stderr_target := target, stderr_mode := "a" }
  | "2>" => { st with stderr_target := target, stderr_mode := "w" }
  | "1>>" | ">>" => { st with stdout_target := target, stdout_mode := "a" }
  | "1>" | ">" => { st with stdout_target := target, stdout_mode := "w" }
  | _ => st

/-- The scanning loop of `parse_redirections` (`while i < len(args_clean)`
with `del args_clean[i:i+2]` and `continue`): returns the final slot
state and the cleaned argument list. -/
def parseRedirAux (st : RedirState) : List String → RedirState × List String
  | [] => (st, [])
  | tok :: rest =>
    if tok ∈ REDIRECT_TOKENS then
      match rest with
      | [] => (applyRedirTok st tok none, [])
      | t :: rest2 => parseRedirAux (applyRedirTok st tok (some t)) rest2
    else
      ((parseRedirAux st rest).1, tok :: (parseRedirAux st rest).2)

/-- `RedirectionManager().parse_redirections(args)` on a fresh manager. -/
def parseRedirections (args : List String) : RedirState × List String :=
  parseRedirAux initRedir args

/-! ## `os.path.dirname` and the directory creation in `open_files`
(lines 153-175)

`open_files` computes `parent = os.path.dirname(target)` and, when
`parent` is non-empty and does not yet exist, calls
`os.makedirs(parent, exist_ok=True)` before opening the target.  The
file system is modelled as the set of existing directories; opening a
file succeeds when the target's parent directory exists (or the target
has no directory component). -/

/-- Index just past the last `'/'`, or `none`. -/
def lastSlashIdxAux (i : Nat) (best : Option Nat) : List Char → Option Nat
  | [] => best
  | c :: r => lastSlashIdxAux (i + 1) (if c = '/' then some i else best) r

/-- `posixpath.dirname`: everything up to the last `'/'`, with trailing
slashes stripped unless the head is all slashes. -/
def dirname (p : String) : String :=
  match lastSlashIdxAux 0 none p.data with
  | none => ""
  | some i =>
    let head := p.data.take (i + 1)
    if head.all (fun c => c = '/') then String.mk head
    else String.mk ((head.reverse.dropWhile (fun c => c = '/')).reverse)

/-- The model file system: the set of directories that exist. -/
structure DirFS where
  dirs : List String
  deriving DecidableEq, Repr

/-- `os.path.exists` restricted to directories. -/
def fsExistsD (fs : DirFS) (p : String) : Bool :=
  decide (p ∈ fs.dirs)

/-- The chain `p, dirname p, dirname (dirname p), ...` of directories
that `os.makedirs(p)` guarantees to exist (fuel-bounded; `dirname` is
eventually constant on `""` and `"/"`). -/
def ancestorsAux : Nat → String → List String
  | 0, _ => []
  | n + 1, p =>
    if p = "" then []
    else if dirname p = p then [p]
    else p :: ancestorsAux n (dirname p)

/-- `os.makedirs(p, exist_ok=True)`: `p` and all its ancestors exist
afterwards. -/
def makedirs (fs : DirFS) (p : String) : DirFS :=
  ⟨ancestorsAux (p.length + 1) p ++ fs.dirs⟩

/-- The parent-creation preamble in `open_files` for one target:
`parent = os.path.dirname(t); if parent and not os.path.exists(parent):
os.makedirs(parent, exist_ok=True)`. -/
def ensureParent (fs : DirFS) (t : String) : DirFS :=
  if dirname t ≠ "" ∧ fsExistsD fs (dirname t) = false then makedirs fs (dirname t) else fs

/-- `open(t, mode)` succeeds iff the directory the target lives in
exists (a target without a directory component opens in the cwd). -/
def canOpen (fs : DirFS) (t : String) : Bool :=
  (dirname t == "") || fsExistsD fs (dirname t)

/-- `RedirectionManager.open_files`: ensure-parent and open the stdout
target, then the stderr target, threading the file system.  Returns the
resulting file system and whether each open succeeded. -/
def openFilesFS (fs : DirFS) (st : RedirState) : DirFS × Bool × Bool :=
  match st.stdout_target with
  | some t =>
    let fs1 := ensureParent fs t
    (match st.stderr_target with
     | some t2 => (ensureParent fs1 t2, canOpen fs1 t, canOpen (ensureParent fs1 t2) t2)
     | none => (fs1, canOpen fs1 t, true))
  | none =>
    match st.stderr_target with
    | some t2 => (ensureParent fs t2, true, canOpen (ensureParent fs t2) t2)
    | none => (fs, true, true)

/-! ## The `cd` builtin (`CdCommand.execute`, lines 543-553)

`cd` with no arguments returns immediately.  `cd ~` (with a truthy
`self.home`) calls `os.chdir(self.home)`.  Otherwise, if
`os.path.exists(arg)` the code calls `os.chdir(arg)` — which raises when
the path exists but is not a directory — and only when the path does not
exist is the `cd: <arg>: No such file or directory` diagnostic printed.
`os.chdir` is modelled as succeeding exactly on directories. -/

/-- The oracles `Shell.execute` and the builtins consult. -/
structure ShellEnv where
  builtins : List String
  which : String → Bool
  pathExists : String → Bool
  isDir : String → Bool
  homeDir : Option String
  openFails : String → Bool

/-- Python truthiness of `self.home` (an `Optional[str]`). -/
def homeTruthy : Option String → Bool
  | none => false
  | some s => !(s == "")

structure CdOut where
  cwd : String
  stderrOut : List String
  raised : Bool
  deriving DecidableEq, Repr

/-- `CdCommand.execute(args)`; `raised = true` models an uncaught
exception out of `os.chdir`. -/
def cdExecute (env : ShellEnv) (cwd : String) (args : List String) : CdOut :=
  match args with
  | [] => ⟨cwd, [], false⟩
  | arg1 :: _ =>
    if arg1 == "~" && homeTruthy env.homeDir then
      match env.homeDir with
      | some h => if env.isDir h then ⟨h, [], false⟩ else ⟨cwd, [], true⟩
      | none => ⟨cwd, [], true⟩
    else if env.pathExists arg1 then
      if env.isDir arg1 then ⟨arg1, [], false⟩ else ⟨cwd, [], true⟩
    else
      ⟨cwd, ["cd: " ++ arg1 ++ ": No such file or directory"], false⟩

/-! ## History bookkeeping

`Shell.command_history` is a plain list; `Shell.history_file_positions`
is a `dict` mapping a path to the number of entries already synced to
that file (`.get(file, 0)` when absent).  File contents are passed in or
returned as lists of lines. -/

structure HistState where
  entries : List String
  positions : List (String × Nat)
  deriving DecidableEq, Repr

/-- `self.history_file_positions.get(p, 0)`. -/
def posGet (ps : List (String × Nat)) (p : String) : Nat :=
  match ps.find? (fun e => e.1 == p) with
  | some e => e.2
  | none => 0

/-- `self.history_file_positions[p] = n`. -/
def posSet (ps : List (String × Nat)) (p : String) (n : Nat) : List (String × Nat) :=
  (p, n) :: ps.filter (fun e => !(e.1 == p))

/-- The recording step at the top of `Shell.execute` (lines 1251-1254):
a line with non-blank content is appended unless it equals the previous
entry. -/
def histRecord (line : String) (st : HistState) : HistState :=
  if pyStrip line ≠ "" ∧ (st.entries = [] ∨ st.entries.getLast? ≠ some line) then
    { st with entries := st.entries ++ [line] }
  else st

/-- `history -c` (line 1042): clears the entries, touching nothing else. -/
def histClearOp (st : HistState) : HistState :=
  { st with entries := [] }

/-- `history -w p` (lines 1045-1056): the whole history is written to the
file (returned as the lines written) and the cursor for `p` advances to
the current length. -/
def histWriteOp (p : String) (st : HistState) : HistState × List String :=
  ({ st with positions := posSet st.positions p st.entries.length }, st.entries)

/-- `history -r p` (lines 1058-1075): non-blank lines of the file are
appended to the in-memory history and the cursor for `p` advances to the
new length. -/
def histReadOp (p : String) (fileLines : List String) (st : HistState) : HistState :=
  let newEntries := st.entries ++ fileLines.filter (fun l => !(pyStrip l == ""))
  ⟨newEntries, posSet st.positions p newEntries.length⟩

/-- `history -a p` (lines 1077-1093): the entries from the cursor on are
appended to the file (returned as the lines written) and the cursor
advances to the current length. -/
def histAppendOp (p : String) (st : HistState) : HistState × List String :=
  ({ st with positions := posSet st.positions p st.entries.length },
   st.entries.drop (posGet st.positions p))

/-- `Shell._load_history_from_env` (lines 1214-1229): when `HISTFILE` is
set (truthy) and the file exists, it is read exactly like `history -r`. -/
def histLoadEnv (histfile : Option String) (fExists : Bool) (fileLines : List String)
    (st : HistState) : HistState :=
  match histfile with
  | some f => if !(f == "") && fExists then histReadOp f fileLines st else st
  | none => st

/-- The per-path cursor invariant claimed by the spec:
`0 ≤ count ≤ len(entries)` for every tracked path. -/
def histInv (st : HistState) : Prop :=
  ∀ e ∈ st.positions, e.2 ≤ st.entries.length

instance (st : HistState) : Decidable (histInv st) :=
  List.decidableBAll _ st.positions

/-! ## `Shell.execute`, the pipeline path, and the `Shell.run` loop

Observable behaviour is a trace of events plus the working directory and
an optional uncaught exception.  `Shell.run` (lines 1294-1314) wraps the
loop body in `except KeyboardInterrupt` / `except EOFError` only — both
can arise only from `input()`; any exception escaping `Shell.execute`
(the `raise` at the end of `open_files`, or an `os.chdir` failure, or
the `sys.exit()` of the `exit` builtin) propagates and terminates the
shell process. -/

inductive Event where
  | stdoutMsg (s : String)
  | stderrMsg (s : String)
  | ranBuiltin (name : String) (args : List String)
  | ranExternal (name : String) (args : List String)
  deriving DecidableEq, Repr

inductive Exc where
  | systemExit
  | osError
  | ioError
  deriving DecidableEq, Repr

structure ExecOut where
  events : List Event
  cwd : String
  raised : Option Exc
  deriving DecidableEq, Repr

/-- The keys of `Shell.commands` (built-in command names), in the order
`Shell.__init__` inserts them. -/
def defaultBuiltins : List String :=
  ["echo", "pwd", "cd", "cat", "ls", "wc", "head", "tail", "exit", "type", "history"]

/-- `self.commands[com].execute(args)`.  `cd` changes the directory or
raises; `exit` raises `SystemExit` (after flushing history, not modelled
here); every other builtin body is abstracted to a `ranBuiltin` event,
since no claim depends on its output. -/
def runBuiltin (env : ShellEnv) (cwd : String) (com : String) (args : List String) : ExecOut :=
  if com == "cd" then
    let r := cdExecute env cwd args
    ⟨Event.ranBuiltin com args :: r.stderrOut.map Event.stderrMsg, r.cwd,
     if r.raised then some Exc.osError else none⟩
  else if com == "exit" then
    ⟨[Event.ranBuiltin com args], cwd, some Exc.systemExit⟩
  else
    ⟨[Event.ranBuiltin com args], cwd, none⟩

/-- Lines 1284-1290 of `Shell.execute`: builtin lookup, then
`shutil.which`, then the not-found diagnostic — whose text interpolates
the WHOLE `command_line`, not the command name. -/
def dispatchCommand (env : ShellEnv) (cwd : String) (line : String) (com : String)
    (args : List String) : ExecOut :=
  if com ∈ env.builtins then runBuiltin env cwd com args
  else if env.which com then ⟨[Event.ranExternal com args], cwd, none⟩
  else ⟨[Event.stderrMsg (line ++ ": command not found")], cwd, none⟩

/-- Does `open_files` fail for this redirection state?  (`open_files`
opens stdout's target, then stderr's; on any failure it prints
`redirection failed: ...` — to stdout — and re-raises.) -/
def redirOpenFails (env : ShellEnv) (st : RedirState) : Bool :=
  (match st.stdout_target with
   | some t => env.openFails t
   | none => false)
  ||
  (match st.stderr_target with
   | some t => env.openFails t
   | none => false)

/-- `Shell.execute` for a line without the pipeline branch (lines
1261-1292): `shlex.split`, redirection extraction, `open_files`, then
dispatch.  The history-recording step at the top of `execute` is
`histRecord`, threaded separately by `executeLineModel`. -/
def shellExecuteNoPipe (env : ShellEnv) (cwd : String) (line : String) : ExecOut :=
  match shlexSplit line with
  | .error e => ⟨[Event.stderrMsg ("parse error: " ++ shlexErrMsg e)], cwd, none⟩
  | .ok [] => ⟨[], cwd, none⟩
  | .ok (com :: rawArgs) =>
    let rs := parseRedirections rawArgs
    if redirOpenFails env rs.1 then
      ⟨[Event.stdoutMsg "redirection failed"], cwd, some Exc.ioError⟩
    else
      dispatchCommand env cwd line com rs.2

/-- One stage of `PipelineManager.execute_pipeline`'s general loop
(lines 354-415): strip, `shlex.split` (a parse error aborts the whole
pipeline), builtin in-process, else `subprocess.run` whose
`FileNotFoundError` handler prints `<name>: command not found`.  The
second component signals abort of the remaining stages. -/
def stageStep (env : ShellEnv) (cwd : String) (piece : String) : ExecOut × Bool :=
  let c := pyStrip piece
  if c = "" then (⟨[], cwd, none⟩, false)
  else
    match shlexSplit c with
    | .error e => (⟨[Event.stderrMsg ("parse error: " ++ shlexErrMsg e)], cwd, none⟩, true)
    | .ok [] => (⟨[], cwd, none⟩, false)
    | .ok (name :: args) =>
      if name ∈ env.builtins then
        let r := runBuiltin env cwd name args
        (r, r.raised.isSome)
      else if env.which name then (⟨[Event.ranExternal name args], cwd, none⟩, false)
      else (⟨[Event.stderrMsg (name ++ ": command not found")], cwd, none⟩, false)

/-- `PipelineManager.execute_pipeline` (general loop; the `tail -f |
head` special case of lines 222-349 uses threads and real time and is
outside this model — no claim concerns it).  Stream plumbing between
stages carries no observable the claims mention and is not tracked. -/
def executePipelineModel (env : ShellEnv) (cwd : String) (line : String) : ExecOut :=
  ((splitByPipe line).foldl
    (fun acc piece =>
      if acc.2 then acc
      else
        let r := stageStep env acc.1.cwd piece
        ((⟨acc.1.events ++ r.1.events, r.1.cwd, r.1.raised⟩ : ExecOut), r.2))
    (⟨[], cwd, none⟩, false)).1

/-- `Shell.execute` (lines 1248-1292): record the line into history,
then either the pipeline path or the direct path. -/
def executeLineModel (env : ShellEnv) (st : HistState) (cwd : String) (line : String) :
    HistState × ExecOut :=
  let st2 := histRecord line st
  if hasPipe line then (st2, executePipelineModel env cwd line)
  else (st2, shellExecuteNoPipe env cwd line)

inductive ReplOutcome where
  | prompt (hist : HistState) (cwd : String)
  | terminated (hist : HistState) (cwd : String)
  deriving DecidableEq, Repr

/-- One iteration of the `Shell.run` loop (lines 1296-1314) on an input
line: an empty line just re-prompts; otherwise the line is executed and
any exception escaping `execute` — none of which is the
`KeyboardInterrupt`/`EOFError` the loop handles — terminates the shell
process. -/
def replStep (env : ShellEnv) (st : HistState) (cwd : String) (line : String) : ReplOutcome :=
  if line = "" then .prompt st cwd
  else
    let r := executeLineModel env st cwd line
    match r.2.raised with
    | none => .prompt r.1 r.2.cwd
    | some _ => .terminated r.1 r.2.cwd

/-! ## Derived classifications and concrete environments used in the
theorems below -/

/-- The operator forms that set the stdout slot. -/
def stdoutOps : List String :=
  [">", "1>", ">>", "1>>"]

/-- The operator forms that set the stderr slot. -/
def stderrOps : List String :=
  ["2>", "2>>"]

/-- The open mode each operator selects (`'a'` for append forms). -/
def modeOf (op : String) : String :=
  if op = ">>" ∨ op = "1>>" ∨ op = "2>>" then "a" else "w"

/-- An environment with no external executables, no existing paths, and
no failing opens. -/
def envPlain : ShellEnv :=
  ⟨defaultBuiltins, fun _ => false, fun _ => false, fun _ => true, some "/home/user",
   fun _ => false⟩

/-- An environment where only the home directory exists as a directory. -/
def envCd : ShellEnv :=
  ⟨defaultBuiltins, fun _ => false, fun _ => false, fun s => s == "/home/user",
   some "/home/user", fun _ => false⟩

/-- An environment where `somefile` exists but is not a directory, and
opening `/bad/f` fails. -/
def envNotADir : ShellEnv :=
  ⟨defaultBuiltins, fun _ => false, fun s => s == "somefile", fun _ => false,
   some "/home/user", fun s => s == "/bad/f"⟩

/-! ## Sanity checks on concrete inputs -/

example : shlexSplit "cd somefile" = .ok ["cd", "somefile"] := by decide
example : shlexSplit "echo >out" = .ok ["echo", ">out"] := by decide
example : shlexSplit "echo > out" = .ok ["echo", ">", "out"] := by decide
example : shlexSplit "echo hi >" = .ok ["echo", "hi", ">"] := by decide
example : shlexSplit "echo 'a" = .error .noClosingQuote := by decide
example : shlexSplit "a''b ''" = .ok ["ab", ""] := by decide
example : shlexSplit "echo \"a\\\"b\"" = .ok ["echo", "a\"b"] := by decide

example : parseRedirections [">", "out"] =
    (⟨some "out", none, "w", "w"⟩, []) := by decide
example : parseRedirections ["hi", ">"] =
    (⟨none, none, "w", "w"⟩, ["hi"]) := by decide
example : parseRedirections [">out"] = (initRedir, [">out"]) := by decide
example : parseRedirections ["x", "2>>", "e", "y"] =
    (⟨none, some "e", "w", "a"⟩, ["x", "y"]) := by decide

example : dirname "d/sub/f.txt" = "d/sub" := by decide
example : dirname "f.txt" = "" := by decide
example : dirname "/f" = "/" := by decide
example : dirname "a//b" = "a" := by decide
example : dirname "d/sub" = "d" := by decide

/-! ## Library lemmas about the Python string splitter -/

theorem pySplitOn_ne_nil (sep : Char) (l : List Char) : pySplitOn sep l ≠ [] := by
  cases l with
  | nil => simp [pySplitOn]
  | cons c rest =>
    simp only [pySplitOn]
    cases h : pySplitOn sep rest with
    | nil => simp
    | cons t ts =>
      by_cases hc : c = sep <;> simp [hc]

theorem pySplitOn_exists_cons (sep : Char) (l : List Char) :
    ∃ t ts, pySplitOn sep l = t :: ts := by
  cases h : pySplitOn sep l with
  | nil => exact absurd h (pySplitOn_ne_nil sep l)
  | cons a b => exact ⟨a, b, rfl⟩

theorem pySplitOn_cons (sep c : Char) (rest t : List Char) (ts : List (List Char))
    (h : pySplitOn sep rest = t :: ts) :
    pySplitOn sep (c :: rest) = if c = sep then [] :: t :: ts else (c :: t) :: ts := by
  unfold pySplitOn
  rw [h]

theorem joinWith_cons_cons (sep : Char) (c : Char) (t : List Char) (ts : List (List Char)) :
    joinWith sep ((c :: t) :: ts) = c :: joinWith sep (t :: ts) := by
  cases ts with
  | nil => simp [joinWith]
  | cons y ys => simp [joinWith]

theorem joinWith_pySplitOn (sep : Char) (l : List Char) :
    joinWith sep (pySplitOn sep l) = l := by
  induction l with
  | nil => simp [pySplitOn, joinWith]
  | cons c rest ih =>
    obtain ⟨t, ts, h⟩ := pySplitOn_exists_cons sep rest
    rw [h] at ih
    rw [pySplitOn_cons sep c rest t ts h]
    by_cases hc : c = sep
    · rw [if_pos hc, hc]
      simp [joinWith, ih]
    · rw [if_neg hc, joinWith_cons_cons, ih]

theorem pySplitOn_length (sep : Char) (l : List Char) :
    (pySplitOn sep l).length = countChar sep l + 1 := by
  induction l with
  | nil => simp [pySplitOn, countChar]
  | cons c rest ih =>
    obtain ⟨t, ts, h⟩ := pySplitOn_exists_cons sep rest
    rw [h] at ih
    rw [pySplitOn_cons sep c rest t ts h]
    by_cases hc : c = sep
    · rw [if_pos hc]
      simp only [List.length_cons, countChar, if_pos hc] at ih ⊢
      omega
    · rw [if_neg hc]
      simp only [List.length_cons, countChar, if_neg hc] at ih ⊢
      omega

theorem pySplitOn_no_sep (sep : Char) (l : List Char) :
    ∀ piece ∈ pySplitOn sep l, sep ∉ piece := by
  induction l with
  | nil =>
    intro piece hp
    simp [pySplitOn] at hp
    simp [hp]
  | cons c rest ih =>
    intro piece hp
    obtain ⟨t, ts, h⟩ := pySplitOn_exists_cons sep rest
    rw [h] at ih
    rw [pySplitOn_cons sep c rest t ts h] at hp
    by_cases hc : c = sep
    · rw [if_pos hc] at hp
      rcases List.mem_cons.mp hp with rfl | hp2
      · simp
      · exact ih piece hp2
    · rw [if_neg hc] at hp
      rcases List.mem_cons.mp hp with rfl | hp2
      · intro hmem
        rcases List.mem_cons.mp hmem with hh | hh
        · exact hc hh.symm
        · exact ih t (List.mem_cons_self t ts) hh
      · exact ih piece (List.mem_cons_of_mem t hp2)

/-! ## Lemmas about the redirection scanner -/

theorem parseRedirAux_step (st : RedirState) (tok t : String) (rest : List String)
    (h : tok ∈ REDIRECT_TOKENS) :
    parseRedirAux st (tok :: t :: rest) = parseRedirAux (applyRedirTok st tok (some t)) rest := by
  simp [parseRedirAux, h]

theorem parseRedirAux_skip (st : RedirState) (tok : String) (rest : List String)
    (h : tok ∉ REDIRECT_TOKENS) :
    parseRedirAux st (tok :: rest) =
      ((parseRedirAux st rest).1, tok :: (parseRedirAux st rest).2) := by
  cases rest with
  | nil => simp [parseRedirAux, h]
  | cons t r2 => simp [parseRedirAux, h]

theorem parseRedirAux_skip_all (st : RedirState) (xs ys : List String)
    (h : ∀ a ∈ xs, a ∉ REDIRECT_TOKENS) :
    parseRedirAux st (xs ++ ys) =
      ((parseRedirAux st ys).1, xs ++ (parseRedirAux st ys).2) := by
  induction xs with
  | nil => rfl
  | cons a l ih =>
    have ha : a ∉ REDIRECT_TOKENS := h a (List.mem_cons_self a l)
    have hl : ∀ b ∈ l, b ∉ REDIRECT_TOKENS := fun b hb => h b (List.mem_cons_of_mem a hb)
    rw [List.cons_append, parseRedirAux_skip st a (l ++ ys) ha, ih hl]
    simp

theorem parseRedirAux_noop (st : RedirState) (xs : List String)
    (h : ∀ a ∈ xs, a ∉ REDIRECT_TOKENS) :
    parseRedirAux st xs = (st, xs) := by
  have h2 := parseRedirAux_skip_all st xs [] h
  have h0 : parseRedirAux st [] = (st, []) := rfl
  rw [h0] at h2
  simpa using h2

theorem stdoutOps_sub (op : String) (h : op ∈ stdoutOps) : op ∈ REDIRECT_TOKENS := by
  simp only [stdoutOps, List.mem_cons, List.not_mem_nil, or_false] at h
  rcases h with rfl | rfl | rfl | rfl <;> decide

theorem stderrOps_sub (op : String) (h : op ∈ stderrOps) : op ∈ REDIRECT_TOKENS := by
  simp only [stderrOps, List.mem_cons, List.not_mem_nil, or_false] at h
  rcases h with rfl | rfl <;> decide

theorem applyRedirTok_stdoutOp (st : RedirState) (op : String) (tg : Option String)
    (h : op ∈ stdoutOps) :
    applyRedirTok st op tg = { st with stdout_target := tg, stdout_mode := modeOf op } := by
  simp only [stdoutOps, List.mem_cons, List.not_mem_nil, or_false] at h
  rcases h with rfl | rfl | rfl | rfl <;> rfl

theorem applyRedirTok_stderrOp (st : RedirState) (op : String) (tg : Option String)
    (h : op ∈ stderrOps) :
    applyRedirTok st op tg = { st with stderr_target := tg, stderr_mode := modeOf op } := by
  simp only [stderrOps, List.mem_cons, List.not_mem_nil, or_false] at h
  rcases h with rfl | rfl <;> rfl

/-! ## Claim C2 — pipeline stage boundaries -/

/-- C2 counterexample: the `|` in `echo 'a|b'` is single-quoted, yet
`has_pipe` reports a pipe and `split_by_pipe` cuts the line there into
two stages instead of leaving it one stage, because the splitter is a
plain `str.split('|')` with no quote awareness. -/
theorem c2_quoted_pipe_counterexample :
    hasPipe "echo 'a|b'" = true
    ∧ splitByPipe "echo 'a|b'" = ["echo 'a", "b'"]
    ∧ splitByPipe "echo 'a|b'" ≠ ["echo 'a|b'"] := by decide

/-- C2 (amended): the line is divided into pipeline stages at EVERY `|`
character — quoted, escaped, or not: the pieces concatenated with `|`
restore the line, no piece contains a `|`, and the number of stages is
always the number of `|` characters plus one. -/
theorem c2_split_at_every_pipe (s : String) :
    joinWith '|' (pySplitOn '|' s.data) = s.data
    ∧ (∀ piece ∈ pySplitOn '|' s.data, '|' ∉ piece)
    ∧ (splitByPipe s).length = countChar '|' s.data + 1 :=
  ⟨joinWith_pySplitOn '|' s.data, pySplitOn_no_sep '|' s.data, by
    simp [splitByPipe, pySplitOn_length]⟩

/-- C2 witness: the amended statement evaluated on `a|b`. -/
theorem c2_split_at_every_pipe_witness :
    joinWith '|' (pySplitOn '|' ("a|b".data)) = "a|b".data
    ∧ '|' ∉ (['a'] : List Char)
    ∧ (splitByPipe "a|b").length = countChar '|' "a|b".data + 1 :=
  ⟨(c2_split_at_every_pipe "a|b").1,
   (c2_split_at_every_pipe "a|b").2.1 ['a'] (by decide),
   (c2_split_at_every_pipe "a|b").2.2⟩

/-! ## Claim C4 — recognition of redirection operators -/

/-- C4 counterexample: in `echo >out` the `>` begins at a word boundary,
but the tokenizer produces the single token `>out`, which is not one of
the six exact operator strings, so no redirection is recognised: the
stdout slot stays `None` and `echo` receives `>out` as an argument —
against the claim that `echo >out` redirects stdout to `out`. -/
theorem c4_attached_operator_counterexample :
    shlexSplit "echo >out" = Except.ok ["echo", ">out"]
    ∧ parseRedirections [">out"] = (initRedir, [">out"])
    ∧ (parseRedirections [">out"]).1.stdout_target = none
    ∧ shellExecuteNoPipe envPlain "/" "echo >out" =
        ⟨[Event.ranBuiltin "echo" [">out"]], "/", none⟩ := by decide

/-- C4 (amended): a redirection operator is recognised exactly when it
forms a whole whitespace-delimited token equal to one of the six strings
in `REDIRECT_TOKENS`; any other token — including `>out` and the
mid-word `a>b`, which `shlex` keeps as one literal token — passes
through to argv untouched. -/
theorem c4_operator_recognised_only_as_own_token (st : RedirState) (tok : String)
    (rest : List String) :
    (tok ∉ REDIRECT_TOKENS →
      parseRedirAux st (tok :: rest) =
        ((parseRedirAux st rest).1, tok :: (parseRedirAux st rest).2))
    ∧ (tok ∈ REDIRECT_TOKENS → ∀ (t : String) (rest2 : List String),
        parseRedirAux st (tok :: t :: rest2) = parseRedirAux (applyRedirTok st tok (some t)) rest2)
    ∧ ">out" ∉ REDIRECT_TOKENS
    ∧ "a>b" ∉ REDIRECT_TOKENS
    ∧ shlexSplit "a>b" = Except.ok ["a>b"] :=
  ⟨fun h => parseRedirAux_skip st tok rest h,
   fun h t rest2 => parseRedirAux_step st tok t rest2 h,
   by decide, by decide, by decide⟩

/-- C4 witness: the amended statement evaluated on `>out` (literal) and
on the standalone token `>` (an operator). -/
theorem c4_operator_recognised_only_as_own_token_witness :
    parseRedirAux initRedir [">out"] =
      ((parseRedirAux initRedir []).1, ">out" :: (parseRedirAux initRedir []).2)
    ∧ parseRedirAux initRedir [">", "out"] =
        parseRedirAux (applyRedirTok initRedir ">" (some "out")) [] :=
  ⟨(c4_operator_recognised_only_as_own_token initRedir ">out" []).1 (by decide),
   (c4_operator_recognised_only_as_own_token initRedir ">" []).2.1 (by decide) "out" []⟩

/-! ## Claim C5 — redirection operator with no target -/

/-- C5 counterexample: for `echo hi >` the trailing `>` produces no
syntax error: the operator is deleted, the stdout slot is set to `None`,
and `echo` executes normally with argv `["hi"]` — against the claim
that the line is abandoned with `syntax error near '>'`. -/
theorem c5_trailing_operator_counterexample :
    parseRedirections ["hi", ">"] = (initRedir, ["hi"])
    ∧ shellExecuteNoPipe envPlain "/" "echo hi >" =
        ⟨[Event.ranBuiltin "echo" ["hi"]], "/", none⟩
    ∧ Event.stderrMsg "syntax error near '>'" ∉
        (shellExecuteNoPipe envPlain "/" "echo hi >").events := by decide

/-- C5 (amended): a redirection operator that is the final token is
silently consumed with target `None` (clearing any earlier redirection
of that stream); no error is reported, the remaining argv is kept, and
the stage executes normally. -/
theorem c5_trailing_operator_dropped (st : RedirState) (args : List String) (op : String)
    (hop : op ∈ REDIRECT_TOKENS) (hargs : ∀ a ∈ args, a ∉ REDIRECT_TOKENS) :
    parseRedirAux st (args ++ [op]) = (applyRedirTok st op none, args) := by
  rw [parseRedirAux_skip_all st args [op] hargs]
  simp [parseRedirAux, hop]

/-- C5 witness: the amended statement evaluated on `["hi", ">"]`. -/
theorem c5_trailing_operator_dropped_witness :
    parseRedirAux initRedir (["hi"] ++ [">"]) = (applyRedirTok initRedir ">" none, ["hi"]) :=
  c5_trailing_operator_dropped initRedir ["hi"] ">" (by decide) (by decide)

/-! ## Claim C6 — operator table and later-wins -/

/-- C6: `>`/`1>` set stdout-truncate, `>>`/`1>>` stdout-append, `2>`
stderr-truncate, `2>>` stderr-append, each consuming the following token
as target and removing both from argv; and when the same stream is
redirected twice in a stage, the later occurrence's target and mode
win. -/
theorem c6_redirection_mapping_last_wins :
    (∀ t : String,
      parseRedirections [">", t] = (⟨some t, none, "w", "w"⟩, [])
      ∧ parseRedirections ["1>", t] = (⟨some t, none, "w", "w"⟩, [])
      ∧ parseRedirections [">>", t] = (⟨some t, none, "a", "w"⟩, [])
      ∧ parseRedirections ["1>>", t] = (⟨some t, none, "a", "w"⟩, [])
      ∧ parseRedirections ["2>", t] = (⟨none, some t, "w", "w"⟩, [])
      ∧ parseRedirections ["2>>", t] = (⟨none, some t, "w", "a"⟩, []))
    ∧ (∀ (pre mid post : List String) (op1 op2 t u : String),
        (∀ a ∈ pre, a ∉ REDIRECT_TOKENS) →
        (∀ a ∈ mid, a ∉ REDIRECT_TOKENS) →
        (∀ a ∈ post, a ∉ REDIRECT_TOKENS) →
        op1 ∈ stdoutOps → op2 ∈ stdoutOps →
        parseRedirections (pre ++ op1 :: t :: (mid ++ op2 :: u :: post)) =
          (⟨some u, none, modeOf op2, "w"⟩, pre ++ (mid ++ post)))
    ∧ (∀ (pre mid post : List String) (op1 op2 t u : String),
        (∀ a ∈ pre, a ∉ REDIRECT_TOKENS) →
        (∀ a ∈ mid, a ∉ REDIRECT_TOKENS) →
        (∀ a ∈ post, a ∉ REDIRECT_TOKENS) →
        op1 ∈ stderrOps → op2 ∈ stderrOps →
        parseRedirections (pre ++ op1 :: t :: (mid ++ op2 :: u :: post)) =
          (⟨none, some u, "w", modeOf op2⟩, pre ++ (mid ++ post))) := by
  refine ⟨fun t => ⟨rfl, rfl, rfl, rfl, rfl, rfl⟩, ?_, ?_⟩
  · intro pre mid post op1 op2 t u hpre hmid hpost h1 h2
    have h1' := stdoutOps_sub op1 h1
    have h2' := stdoutOps_sub op2 h2
    unfold parseRedirections
    rw [parseRedirAux_skip_all initRedir pre (op1 :: t :: (mid ++ op2 :: u :: post)) hpre,
      parseRedirAux_step initRedir op1 t (mid ++ op2 :: u :: post) h1',
      parseRedirAux_skip_all (applyRedirTok initRedir op1 (some t)) mid (op2 :: u :: post) hmid,
      parseRedirAux_step (applyRedirTok initRedir op1 (some t)) op2 u post h2',
      parseRedirAux_noop (applyRedirTok (applyRedirTok initRedir op1 (some t)) op2 (some u))
        post hpost,
      applyRedirTok_stdoutOp initRedir op1 (some t) h1,
      applyRedirTok_stdoutOp _ op2 (some u) h2]
    simp [initRedir]
  · intro pre mid post op1 op2 t u hpre hmid hpost h1 h2
    have h1' := stderrOps_sub op1 h1
    have h2' := stderrOps_sub op2 h2
    unfold parseRedirections
    rw [parseRedirAux_skip_all initRedir pre (op1 :: t :: (mid ++ op2 :: u :: post)) hpre,
      parseRedirAux_step initRedir op1 t (mid ++ op2 :: u :: post) h1',
      parseRedirAux_skip_all (applyRedirTok initRedir op1 (some t)) mid (op2 :: u :: post) hmid,
      parseRedirAux_step (applyRedirTok initRedir op1 (some t)) op2 u post h2',
      parseRedirAux_noop (applyRedirTok (applyRedirTok initRedir op1 (some t)) op2 (some u))
        post hpost,
      applyRedirTok_stderrOp initRedir op1 (some t) h1,
      applyRedirTok_stderrOp _ op2 (some u) h2]
    simp [initRedir]

/-- C6 witness: the later-wins statement evaluated on concrete stages
`x > f y >> g` and `2> e 2>> e2`. -/
theorem c6_redirection_mapping_last_wins_witness :
    parseRedirections ["x", ">", "f", "y", ">>", "g"] = (⟨some "g", none, "a", "w"⟩, ["x", "y"])
    ∧ parseRedirections ["2>", "e", "2>>", "e2"] = (⟨none, some "e2", "w", "a"⟩, []) := by
  constructor
  · have h := c6_redirection_mapping_last_wins.2.1 ["x"] ["y"] [] ">" ">>" "f" "g"
      (by decide) (by decide) (by decide) (by decide) (by decide)
    simpa [modeOf] using h
  · have h := c6_redirection_mapping_last_wins.2.2 [] [] [] "2>" "2>>" "e" "e2"
      (by decide) (by decide) (by decide) (by decide) (by decide)
    simpa [modeOf] using h

/-! ## Claim C3 — the command-not-found diagnostic -/

theorem redirOpenFails_false (env : ShellEnv) (st : RedirState)
    (h4 : ∀ t, env.openFails t = false) : redirOpenFails env st = false := by
  unfold redirOpenFails
  cases st.stdout_target <;> cases st.stderr_target <;> simp [h4]

/-- C3 counterexample: for the single-stage line `nosuch arg` (with
`nosuch` neither a builtin nor on the path) the shell prints
`nosuch arg: command not found` — interpolating the whole command line —
not `nosuch: command not found` with the first WORD as the claim
states. -/
theorem c3_full_line_in_message_counterexample :
    shellExecuteNoPipe envPlain "/" "nosuch arg" =
      ⟨[Event.stderrMsg "nosuch arg: command not found"], "/", none⟩
    ∧ "nosuch arg: command not found" ≠ "nosuch: command not found" := by decide

/-- C3 (amended): when the command resolves to neither a builtin nor an
executable, the single-command path of `Shell.execute` prints
`<line>: command not found` to stderr, where `<line>` is the entire
input line; the pipeline path prints `<name>: command not found` with
the stage's command name.  (No exit code is tracked anywhere: the
claimed 127 has no counterpart in the code.) -/
theorem c3_not_found_message (env : ShellEnv) (cwd line com : String) (args : List String)
    (h1 : shlexSplit line = Except.ok (com :: args))
    (h2 : com ∉ env.builtins)
    (h3 : env.which com = false)
    (h4 : ∀ t, env.openFails t = false) :
    shellExecuteNoPipe env cwd line =
      ⟨[Event.stderrMsg (line ++ ": command not found")], cwd, none⟩
    ∧ (∀ (piece name : String) (args2 : List String),
        pyStrip piece ≠ "" → shlexSplit (pyStrip piece) = Except.ok (name :: args2) →
        name ∉ env.builtins → env.which name = false →
        stageStep env cwd piece =
          (⟨[Event.stderrMsg (name ++ ": command not found")], cwd, none⟩, false)) := by
  constructor
  · unfold shellExecuteNoPipe
    rw [h1]
    simp [redirOpenFails_false env _ h4, dispatchCommand, h2, h3]
  · intro piece name args2 hne hsp hni hwh
    unfold stageStep
    simp [hne, hsp, hni, hwh]

/-- C3 witness: the amended statement evaluated on `nosuch2 x`, both as
a single command and as a (whitespace-padded) pipeline stage. -/
theorem c3_not_found_message_witness :
    shellExecuteNoPipe envPlain "/" "nosuch2 x" =
      ⟨[Event.stderrMsg ("nosuch2 x" ++ ": command not found")], "/", none⟩
    ∧ stageStep envPlain "/" " nosuch2 x " =
        (⟨[Event.stderrMsg ("nosuch2" ++ ": command not found")], "/", none⟩, false) :=
  ⟨(c3_not_found_message envPlain "/" "nosuch2 x" "nosuch2" ["x"]
      (by decide) (by decide) rfl (fun t => rfl)).1,
   (c3_not_found_message envPlain "/" "nosuch2 x" "nosuch2" ["x"]
      (by decide) (by decide) rfl (fun t => rfl)).2
     " nosuch2 x " "nosuch2" ["x"] (by decide) (by decide) (by decide) rfl⟩

/-! ## Claim C7 — the `cd` builtin -/

/-- C7 counterexample: `cd` with zero arguments returns immediately and
leaves the working directory unchanged — it does not change to the home
directory as the claim states (here home is `/home/user` and it exists
as a directory). -/
theorem c7_cd_no_args_counterexample :
    cdExecute envCd "/tmp" [] = ⟨"/tmp", [], false⟩
    ∧ (cdExecute envCd "/tmp" []).cwd ≠ "/home/user" := by decide

/-- C7 (amended): `cd` with zero arguments is a no-op; `cd ~` with a
configured home chdirs to the home directory; `cd d` for an existing
directory chdirs to it; for an existing non-directory `os.chdir` raises
an uncaught exception; and only when the path does not exist at all is
`cd: <arg>: No such file or directory` printed with the directory
unchanged. -/
theorem c7_cd_behaviour (env : ShellEnv) (cwd a : String) :
    cdExecute env cwd [] = ⟨cwd, [], false⟩
    ∧ (∀ h, env.homeDir = some h → homeTruthy env.homeDir = true → env.isDir h = true →
        cdExecute env cwd ["~"] = ⟨h, [], false⟩)
    ∧ ((a == "~" && homeTruthy env.homeDir) = false → env.pathExists a = true →
        env.isDir a = true → cdExecute env cwd [a] = ⟨a, [], false⟩)
    ∧ ((a == "~" && homeTruthy env.homeDir) = false → env.pathExists a = true →
        env.isDir a = false → cdExecute env cwd [a] = ⟨cwd, [], true⟩)
    ∧ ((a == "~" && homeTruthy env.homeDir) = false → env.pathExists a = false →
        cdExecute env cwd [a] = ⟨cwd, ["cd: " ++ a ++ ": No such file or directory"], false⟩) := by
  refine ⟨rfl, ?_, ?_, ?_, ?_⟩
  · intro h hh ht hd
    rw [hh] at ht
    simp [cdExecute, hh, ht, hd]
  · intro hcond hex hdir
    simp [cdExecute, hcond, hex, hdir]
  · intro hcond hex hdir
    simp [cdExecute, hcond, hex, hdir]
  · intro hcond hex
    simp [cdExecute, hcond, hex]

/-- C7 witness: the amended statement evaluated for `cd ~` (home exists)
and `cd nope` (no such path). -/
theorem c7_cd_behaviour_witness :
    cdExecute envCd "/tmp" ["~"] = ⟨"/home/user", [], false⟩
    ∧ cdExecute envCd "/tmp" ["nope"] =
        ⟨"/tmp", ["cd: " ++ "nope" ++ ": No such file or directory"], false⟩ :=
  ⟨(c7_cd_behaviour envCd "/tmp" "nope").2.1 "/home/user" rfl (by decide) (by decide),
   (c7_cd_behaviour envCd "/tmp" "nope").2.2.2.2 (by decide) rfl⟩

/-! ## Claim C1 — error containment in the REPL -/

/-- C1: two errors the claim says are contained actually terminate the
shell.  `cd somefile` where `somefile` exists but is not a directory
raises out of `os.chdir` with no diagnostic, and a failing redirection
open (`echo x > /bad/f`) prints `redirection failed: ...` and then
re-raises; `Shell.run` catches only `KeyboardInterrupt`/`EOFError`, so
both exceptions end the process instead of returning to the prompt. -/
theorem c1_uncaught_errors_terminate_repl :
    replStep envNotADir ⟨[], []⟩ "/" "cd somefile" =
      ReplOutcome.terminated ⟨["cd somefile"], []⟩ "/"
    ∧ shellExecuteNoPipe envNotADir "/" "cd somefile" =
        ⟨[Event.ranBuiltin "cd" ["somefile"]], "/", some Exc.osError⟩
    ∧ replStep envNotADir ⟨[], []⟩ "/" "echo x > /bad/f" =
        ReplOutcome.terminated ⟨["echo x > /bad/f"], []⟩ "/"
    ∧ shellExecuteNoPipe envNotADir "/" "echo x > /bad/f" =
        ⟨[Event.stdoutMsg "redirection failed"], "/", some Exc.ioError⟩ := by decide

/-! ## Claims C8/C9 — history cursors -/

theorem mem_posSet {ps : List (String × Nat)} {p : String} {n : Nat} {e : String × Nat}
    (h : e ∈ posSet ps p n) : e = (p, n) ∨ e ∈ ps := by
  rcases List.mem_cons.mp h with h | h
  · exact Or.inl h
  · exact Or.inr (List.mem_filter.mp h).1

theorem posGet_posSet_same (ps : List (String × Nat)) (p : String) (n : Nat) :
    posGet (posSet ps p n) p = n := by
  unfold posGet posSet
  rw [List.find?_cons_of_pos _ (by simp)]

theorem histInv_record (st : HistState) (line : String) (h : histInv st) :
    histInv (histRecord line st) := by
  unfold histRecord
  split
  · intro e he
    have hb := h e he
    simp only [List.length_append, List.length_singleton]
    omega
  · exact h

theorem histInv_write (st : HistState) (p : String) (h : histInv st) :
    histInv (histWriteOp p st).1 := by
  intro e he
  rcases mem_posSet he with rfl | he2
  · exact le_refl _
  · exact h e he2

theorem histInv_read (st : HistState) (p : String) (fileLines : List String)
    (h : histInv st) : histInv (histReadOp p fileLines st) := by
  intro e he
  rcases mem_posSet he with rfl | he2
  · exact le_refl _
  · have hb := h e he2
    have hlen : st.entries.length ≤
        (st.entries ++ fileLines.filter (fun l => !(pyStrip l == ""))).length := by
      simp
    exact le_trans hb hlen

theorem histInv_append (st : HistState) (p : String) (h : histInv st) :
    histInv (histAppendOp p st).1 := by
  intro e he
  rcases mem_posSet he with rfl | he2
  · exact le_refl _
  · exact h e he2

theorem histInv_load (st : HistState) (hf : Option String) (fe : Bool)
    (fileLines : List String) (h : histInv st) :
    histInv (histLoadEnv hf fe fileLines st) := by
  cases hf with
  | none => exact h
  | some f =>
    by_cases hc : (!(f == "") && fe) = true
    · have he : histLoadEnv (some f) fe fileLines st = histReadOp f fileLines st := by
        simp [histLoadEnv, hc]
      rw [he]
      exact histInv_read st f fileLines h
    · have he : histLoadEnv (some f) fe fileLines st = st := by
        simp [histLoadEnv, hc]
      rw [he]
      exact h

/-- C8 counterexample: record `a`, then `history -w f` (the cursor for
`f` becomes 1), then `history -c`: the entries are gone but the cursor
still reads 1 > 0 = number of entries, breaking the claimed invariant —
`clear` never resets the per-path cursors. -/
theorem c8_clear_leaves_stale_cursor :
    ¬ histInv (histClearOp (histWriteOp "f" (histRecord "a" ⟨[], []⟩)).1)
    ∧ (histClearOp (histWriteOp "f" (histRecord "a" ⟨[], []⟩)).1).positions = [("f", 1)]
    ∧ (histClearOp (histWriteOp "f" (histRecord "a" ⟨[], []⟩)).1).entries = [] := by decide

/-- C8 (amended): the cursor invariant `0 ≤ count ≤ len(entries)` is
preserved by recording a line, `history -w`, `history -r`, `history -a`,
and the startup `HISTFILE` load — but not by `history -c`, which clears
the entries while leaving every cursor unchanged. -/
theorem c8_cursor_invariant_except_clear (st : HistState) (line p : String)
    (fileLines : List String) (hf : Option String) (fe : Bool) (h : histInv st) :
    histInv (histRecord line st)
    ∧ histInv (histWriteOp p st).1
    ∧ histInv (histReadOp p fileLines st)
    ∧ histInv (histAppendOp p st).1
    ∧ histInv (histLoadEnv hf fe fileLines st) :=
  ⟨histInv_record st line h, histInv_write st p h, histInv_read st p fileLines h,
   histInv_append st p h, histInv_load st hf fe fileLines h⟩

/-- C8 witness: the amended statement evaluated on a one-entry store
with one tracked file. -/
theorem c8_cursor_invariant_except_clear_witness :
    histInv (histRecord "b" ⟨["a"], [("f", 1)]⟩)
    ∧ histInv (histWriteOp "g" ⟨["a"], [("f", 1)]⟩).1
    ∧ histInv (histReadOp "g" ["x"] ⟨["a"], [("f", 1)]⟩)
    ∧ histInv (histAppendOp "g" ⟨["a"], [("f", 1)]⟩).1
    ∧ histInv (histLoadEnv (some "h") true ["x"] ⟨["a"], [("f", 1)]⟩) :=
  c8_cursor_invariant_except_clear ⟨["a"], [("f", 1)]⟩ "b" "g" ["x"] (some "h") true
    (by decide)

/-- C9: immediately after `history -a p`, a second `history -a p` with
no intervening record appends zero entries: the first append advanced
the cursor for `p` to `len(entries)`, so the second writes
`entries[len:] = []`. -/
theorem c9_second_append_writes_nothing (st : HistState) (p : String) :
    (histAppendOp p (histAppendOp p st).1).2 = [] := by
  show st.entries.drop (posGet (posSet st.positions p st.entries.length) p) = []
  rw [posGet_posSet_same, List.drop_length]

/-! ## Claim C10 — parent directory creation for redirection targets -/

theorem mem_ancestorsAux_self (p : String) (n : Nat) (hp : p ≠ "") :
    p ∈ ancestorsAux (n + 1) p := by
  simp only [ancestorsAux]
  rw [if_neg hp]
  by_cases hd : dirname p = p
  · rw [if_pos hd]
    exact List.mem_singleton.mpr rfl
  · rw [if_neg hd]
    exact List.mem_cons_self p _

theorem fsExistsD_makedirs_self (fs : DirFS) (p : String) (hp : p ≠ "") :
    fsExistsD (makedirs fs p) p = true := by
  have hm : p ∈ ancestorsAux (p.length + 1) p ++ fs.dirs :=
    List.mem_append_left _ (mem_ancestorsAux_self p p.length hp)
  simpa [fsExistsD, makedirs] using hm

theorem fsExistsD_ensureParent_parent (fs : DirFS) (t : String) (h : dirname t ≠ "") :
    fsExistsD (ensureParent fs t) (dirname t) = true := by
  unfold ensureParent
  by_cases he : fsExistsD fs (dirname t) = false
  · rw [if_pos ⟨h, he⟩]
    exact fsExistsD_makedirs_self fs (dirname t) h
  · rw [if_neg (fun hc => he hc.2)]
    cases hb : fsExistsD fs (dirname t) with
    | false => exact absurd hb he
    | true => rfl

theorem fsExistsD_ensureParent_mono (fs : DirFS) (t q : String)
    (h : fsExistsD fs q = true) : fsExistsD (ensureParent fs t) q = true := by
  unfold ensureParent
  split
  · have hq : q ∈ fs.dirs := by simpa [fsExistsD] using h
    have hm : q ∈ ancestorsAux ((dirname t).length + 1) (dirname t) ++ fs.dirs :=
      List.mem_append_right _ hq
    simpa [fsExistsD, makedirs] using hm
  · exact h

theorem canOpen_ensureParent (fs : DirFS) (t : String) :
    canOpen (ensureParent fs t) t = true := by
  by_cases h : dirname t = ""
  · simp [canOpen, h]
  · simp [canOpen, fsExistsD_ensureParent_parent fs t h]

/-- C10: `open_files` first creates all missing parent directories of
each redirection target (`os.makedirs(parent, exist_ok=True)` preceded
by the existence test), so both opens succeed even into directories that
did not exist, and afterwards each target's parent directory exists. -/
theorem c10_open_creates_missing_parents (fs : DirFS) (st : RedirState) :
    (openFilesFS fs st).2.1 = true
    ∧ (openFilesFS fs st).2.2 = true
    ∧ (∀ t, st.stdout_target = some t → dirname t ≠ "" →
        fsExistsD (openFilesFS fs st).1 (dirname t) = true)
    ∧ (∀ t, st.stderr_target = some t → dirname t ≠ "" →
        fsExistsD (openFilesFS fs st).1 (dirname t) = true) := by
  unfold openFilesFS
  cases h1 : st.stdout_target with
  | none =>
    cases h2 : st.stderr_target with
    | none =>
      refine ⟨rfl, rfl, ?_, ?_⟩ <;> intro t ht <;> exact absurd ht (by simp)
    | some t2 =>
      refine ⟨rfl, canOpen_ensureParent fs t2, ?_, ?_⟩
      · intro t ht
        exact absurd ht (by simp)
      · intro t ht hne
        obtain rfl : t2 = t := Option.some.inj ht
        exact fsExistsD_ensureParent_parent fs t2 hne
  | some t1 =>
    cases h2 : st.stderr_target with
    | none =>
      refine ⟨canOpen_ensureParent fs t1, rfl, ?_, ?_⟩
      · intro t ht hne
        obtain rfl : t1 = t := Option.some.inj ht
        exact fsExistsD_ensureParent_parent fs t1 hne
      · intro t ht
        exact absurd ht (by simp)
    | some t2 =>
      refine ⟨canOpen_ensureParent fs t1,
        canOpen_ensureParent (ensureParent fs t1) t2, ?_, ?_⟩
      · intro t ht hne
        obtain rfl : t1 = t := Option.some.inj ht
        exact fsExistsD_ensureParent_mono (ensureParent fs t1) t2 (dirname t1)
          (fsExistsD_ensureParent_parent fs t1 hne)
      · intro t ht hne
        obtain rfl : t2 = t := Option.some.inj ht
        exact fsExistsD_ensureParent_parent (ensureParent fs t1) t2 hne

/-- C10 witness: on an empty file system, redirecting stdout to
`d/s/f` and stderr to `e/g` succeeds and creates both parent
directories. -/
theorem c10_open_creates_missing_parents_witness :
    (openFilesFS ⟨[]⟩ ⟨some "d/s/f", some "e/g", "w", "w"⟩).2.1 = true
    ∧ fsExistsD (openFilesFS ⟨[]⟩ ⟨some "d/s/f", some "e/g", "w", "w"⟩).1
        (dirname "d/s/f") = true
    ∧ fsExistsD (openFilesFS ⟨[]⟩ ⟨some "d/s/f", some "e/g", "w", "w"⟩).1
        (dirname "e/g") = true :=
  ⟨(c10_open_creates_missing_parents ⟨[]⟩ ⟨some "d/s/f", some "e/g", "w", "w"⟩).1,
   (c10_open_creates_missing_parents ⟨[]⟩ ⟨some "d/s/f", some "e/g", "w", "w"⟩).2.2.1
     "d/s/f" rfl (by decide),
   (c10_open_creates_missing_parents ⟨[]⟩ ⟨some "d/s/f", some "e/g", "w", "w"⟩).2.2.2
     "e/g" rfl (by decide)⟩
